import Mathlib

/-!
Verification of the spinel host-side protocol library.

Shallow embedding of the Rust sources:
  - `src/spinel/src/codec/datatype/packed_u32.rs` (PackedU32)
  - `src/spinel/src/codec/datatype/status.rs` (Status, ResetReason)
  - `src/spinel/src/codec/property.rs` (Property)
  - `src/spinel/src/codec/command.rs` (Command)
  - `src/spinel/src/codec/frame/spinel.rs` (Header, Frame)
  - `src/spinel/src/codec/frame/hdlc.rs` (HdlcLiteFrame)
  - `src/spinel/src/connection/posix.rs` (PosixSpinelHost actor)

Machine integers (u8/u16/u32/usize) are modelled as `Nat`; wherever the Rust
code can overflow or truncate, the reduction `% 2 ^ w` is written explicitly.
Fallible Rust code returns `Except Error α`; Rust expressions that can panic
(slice indexing out of range, `usize` subtraction underflow, mismatched
`copy_from_slice` lengths, `Option::unwrap` on `None`) are modelled as
`Option`-valued functions where `none` marks the panic.
-/

namespace Spinel

/-- Status codes from `status.rs` (`enum Status`, wire values 0..=24). -/
inductive Status where
  | ok
  | failure
  | unimplemented
  | invalidArgument
  | invalidState
  | invalidCommand
  | invalidInterface
  | internalError
  | securityError
  | parseError
  | inProgress
  | noMemory
  | busy
  | propertyNotFound
  | packetDropped
  | empty
  | commandTooBig
  | noAck
  | ccaFailure
  | already
  | itemNotFound
  | invalidCommandForProperty
  | unknownNeighbor
  | notCapable
  | responseTimeout
  deriving DecidableEq, Repr

/-- `impl TryFrom<u8> for Status` in `status.rs`: wire byte to status. -/
def Status.tryFromU8 (value : Nat) : Except Unit Status :=
  if value = 0 then .ok .ok
  else if value = 1 then .ok .failure
  else if value = 2 then .ok .unimplemented
  else if value = 3 then .ok .invalidArgument
  else if value = 4 then .ok .invalidState
  else if value = 5 then .ok .invalidCommand
  else if value = 6 then .ok .invalidInterface
  else if value = 7 then .ok .internalError
  else if value = 8 then .ok .securityError
  else if value = 9 then .ok .parseError
  else if value = 10 then .ok .inProgress
  else if value = 11 then .ok .noMemory
  else if value = 12 then .ok .busy
  else if value = 13 then .ok .propertyNotFound
  else if value = 14 then .ok .packetDropped
  else if value = 15 then .ok .empty
  else if value = 16 then .ok .commandTooBig
  else if value = 17 then .ok .noAck
  else if value = 18 then .ok .ccaFailure
  else if value = 19 then .ok .already
  else if value = 20 then .ok .itemNotFound
  else if value = 21 then .ok .invalidCommandForProperty
  else if value = 22 then .ok .unknownNeighbor
  else if value = 23 then .ok .notCapable
  else if value = 24 then .ok .responseTimeout
  else .error ()

/-- Reset reasons from `status.rs` (`enum ResetReason`, wire values 112..=120). -/
inductive ResetReason where
  | powerOn
  | external
  | software
  | fault
  | crash
  | assertReason
  | other
  | unknown
  | watchdog
  deriving DecidableEq, Repr

/-- `impl TryFrom<u32> for ResetReason` in `status.rs`. -/
def ResetReason.tryFromU32 (value : Nat) : Except Unit ResetReason :=
  if value = 112 then .ok .powerOn
  else if value = 113 then .ok .external
  else if value = 114 then .ok .software
  else if value = 115 then .ok .fault
  else if value = 116 then .ok .crash
  else if value = 117 then .ok .assertReason
  else if value = 118 then .ok .other
  else if value = 119 then .ok .unknown
  else if value = 120 then .ok .watchdog
  else .error ()

/-- The error taxonomy from `error.rs` (`enum Error`), string payloads elided. -/
inductive Error where
  | datatypeParseU8
  | header (value : Nat)
  | hdlcChecksum (crc : Nat)
  | hdlcStartDelimiter (b : Nat)
  | hdlcEndDelimiter (b : Nat)
  | hostConnectionSend
  | hostConnectionRecv
  | command (id : Nat)
  | io
  | property (id : Nat)
  | packedU32ByteCount
  | packetLength (n : Nat)
  | serialConfig
  | status (s : Status)
  deriving DecidableEq, Repr

namespace PackedU32

/-- `PackedU32::count_bytes` from `packed_u32.rs`: `count` is set to `i + 1`
at the first octet whose MSB is clear; if no such octet exists the initial
value `0` is returned.  The auxiliary argument `i` is the `enumerate` index. -/
def count_bytesAux : List Nat → Nat → Nat
  | [], _ => 0
  | byte :: rest, i =>
    if byte &&& 0x80 = 0 then i + 1 else count_bytesAux rest (i + 1)

/-- `PackedU32::count_bytes` on a byte slice. -/
def count_bytes (value : List Nat) : Nat :=
  count_bytesAux value 0

/-- `PackedU32::encode` from `packed_u32.rs`: three loop iterations over the
result array, unrolled.  Returns the 3-byte array and the byte count; the
count starts at 1 and is incremented in every iteration whose shifted
remainder is non-zero (so values above 21 bits yield a count of 4). -/
def encode (value : Nat) : List Nat × Nat :=
  let b0 := value &&& 0x7F
  let v1 := value >>> 7
  let b0 := if v1 ≠ 0 then b0 ||| 0x80 else b0
  let count := if v1 ≠ 0 then 2 else 1
  let b1 := v1 &&& 0x7F
  let v2 := v1 >>> 7
  let b1 := if v2 ≠ 0 then b1 ||| 0x80 else b1
  let count := if v2 ≠ 0 then count + 1 else count
  let b2 := v2 &&& 0x7F
  let v3 := v2 >>> 7
  let b2 := if v3 ≠ 0 then b2 ||| 0x80 else b2
  let count := if v3 ≠ 0 then count + 1 else count
  ([b0, b1, b2], count)

/-- Loop body of `PackedU32::decode`: `i` is the `enumerate` index, `value`
the accumulator, `mult` the multiplier.  The loop bails with the current
accumulator and count `0` past the third octet, and stops with count `i + 1`
at the first octet whose MSB is clear. -/
def decodeAux : List Nat → Nat → Nat → Nat → Nat × Nat
  | [], _, value, _ => (value, 0)
  | byte :: rest, i, value, mult =>
    if i ≥ 3 then (value, 0)
    else
      let value := value + (byte &&& 0x7F) * mult
      if byte &&& 0x80 = 0 then (value, i + 1)
      else decodeAux rest (i + 1) value (mult * 128)

/-- `PackedU32::decode` from `packed_u32.rs`. -/
def decode (bytes : List Nat) : Nat × Nat :=
  decodeAux bytes 0 0 1

/-- `PackedU32::packed_len` from `packed_u32.rs`. -/
def packed_len (value : Nat) : Nat :=
  if value ≤ 127 then 1
  else if value ≤ 16383 then 2
  else 3

/-- `PackedU32::write_to_buffer` from `packed_u32.rs`: slicing the 3-byte
array as `&array[..count]` panics (`none`) when `count` exceeds 3. -/
def write_to_buffer (value : Nat) : Option (List Nat × Nat) :=
  let (array, count) := encode value
  if count ≤ array.length then some (array.take count, count) else none

/-- `impl TryFrom<&PackedByteSlice> for PackedU32` from `packed_u32.rs`.
`array.copy_from_slice(&bytes[..count])` copies into a fixed 3-byte array
and panics (`none`) unless the source slice also has length 3, i.e. unless
`count = 3`. -/
def tryFromPackedByteSlice (bytes : List Nat) : Option (Except Error (List Nat)) :=
  let count := count_bytes bytes
  if count > 3 then some (.error .packedU32ByteCount)
  else if count = 3 then some (.ok (bytes.take count))
  else none

end PackedU32

/-- `enum PropertyStream` from `property.rs`. -/
inductive PropertyStream where
  | debug
  | net
  | netInsecure
  | log
  deriving DecidableEq, Repr

/-- `enum Property` from `property.rs`. -/
inductive Property where
  | lastStatus
  | protocolVersion
  | ncpVersion
  | interfaceType
  | stream (s : PropertyStream)
  deriving DecidableEq, Repr

/-- `Property::id` from `property.rs`. -/
def Property.id : Property → Nat
  | .lastStatus => 0x00
  | .protocolVersion => 0x01
  | .ncpVersion => 0x02
  | .interfaceType => 0x03
  | .stream .debug => 0x70
  | .stream .net => 0x71
  | .stream .netInsecure => 0x73
  | .stream .log => 0x74

/-- `Property::packed_len` from `property.rs`. -/
def Property.packed_len (p : Property) : Nat :=
  PackedU32.packed_len p.id

/-- `impl TryFrom<u32> for Property` from `property.rs`. -/
def Property.tryFromU32 (id : Nat) : Except Error Property :=
  if id = 0x00 then .ok .lastStatus
  else if id = 0x01 then .ok .protocolVersion
  else if id = 0x02 then .ok .ncpVersion
  else if id = 0x03 then .ok .interfaceType
  else if id = 0x70 then .ok (.stream .debug)
  else if id = 0x71 then .ok (.stream .net)
  else if id = 0x73 then .ok (.stream .netInsecure)
  else if id = 0x74 then .ok (.stream .log)
  else .error (.property id)

/-- `impl TryFrom<&[u8]> for Property` from `property.rs`: decode the packed
property id from the first `count_bytes` octets.  `&bytes[..len]` is in
range because `count_bytes` never exceeds the slice length. -/
def Property.tryFromBytes (bytes : List Nat) : Except Error Property :=
  let len := PackedU32.count_bytes bytes
  let prop_id := (PackedU32.decode (bytes.take len)).1
  Property.tryFromU32 prop_id

/-- `enum Command` from `command.rs`; payloads are byte lists. -/
inductive Command where
  | noop
  | reset
  | propertyValueGet (p : Property)
  | propertyValueIs (p : Property) (value : List Nat)
  deriving DecidableEq, Repr

/-- `Command::id` from `command.rs`. -/
def Command.id : Command → Nat
  | .noop => 0x00
  | .reset => 0x01
  | .propertyValueGet _ => 0x02
  | .propertyValueIs _ _ => 0x06

/-- The bytes `PackedU32::write_to_buffer` appends for the ids appearing in
`Command::encode`; all those ids are below 128 so the slice is in range. -/
def packedBytes (id : Nat) : List Nat :=
  let (array, count) := PackedU32.encode id
  array.take count

/-- `Command::encode` from `command.rs`: packed command id, then for
Get/Is the packed property id, then for Is the payload verbatim. -/
def Command.encode : Command → List Nat
  | .noop => packedBytes 0x00
  | .reset => packedBytes 0x01
  | .propertyValueGet p => packedBytes 0x02 ++ packedBytes p.id
  | .propertyValueIs p value => packedBytes 0x06 ++ packedBytes p.id ++ value

/-- `Command::decode` from `command.rs`.  `&payload[prop.packed_len()..]`
panics (`none`) when the payload is shorter than the packed property id. -/
def Command.decode (buffer : List Nat) : Option (Except Error Command) :=
  if buffer.isEmpty then some (.error (.packetLength 0))
  else
    let cmd_id_len := PackedU32.count_bytes buffer
    let id := (PackedU32.decode (buffer.take cmd_id_len)).1
    let payload := buffer.drop cmd_id_len
    if id = 0x00 then some (.ok .noop)
    else if id = 0x01 then some (.ok .reset)
    else if id = 0x02 then
      match Property.tryFromBytes payload with
      | .error e => some (.error e)
      | .ok prop => some (.ok (.propertyValueGet prop))
    else if id = 0x06 then
      match Property.tryFromBytes payload with
      | .error e => some (.error e)
      | .ok prop =>
        if prop.packed_len ≤ payload.length then
          some (.ok (.propertyValueIs prop (payload.drop prop.packed_len)))
        else none
    else some (.error (.command id))

/-- `struct Header` from `spinel.rs`: flag, IID and TID fields (u8). -/
structure Header where
  flag : Nat
  iid : Nat
  tid : Nat
  deriving DecidableEq, Repr

/-- `Header::new` from `spinel.rs`: the flag is always `0b10`. -/
def Header.new (iid tid : Nat) : Header :=
  Header.mk 0b10 iid tid

/-- `impl From<Header> for u8`: `(flag << 6) | (iid << 4) | tid`; the u8
shifts discard bits above bit 7. -/
def Header.toU8 (h : Header) : Nat :=
  (((h.flag <<< 6) % 256) ||| ((h.iid <<< 4) % 256)) ||| h.tid

/-- `u8::rotate_right(n)` for `0 < n < 8`, operands below 256. -/
def rotateRightU8 (x n : Nat) : Nat :=
  ((x >>> n) ||| (x <<< (8 - n))) % 256

/-- `impl TryFrom<u8> for Header` from `spinel.rs`. -/
def Header.tryFromU8 (value : Nat) : Except Error Header :=
  let flag := rotateRightU8 (value &&& 0b11000000) 6
  let iid := rotateRightU8 (value &&& 0b00110000) 4
  let tid := value &&& 0b00001111
  if flag ≠ 0b10 then .error (.header value)
  else .ok (Header.mk flag iid tid)

/-- `struct Frame` from `spinel.rs`. -/
structure Frame where
  header : Header
  command : Command
  deriving DecidableEq, Repr

/-- `Frame::encode` from `spinel.rs`: header octet, then the command bytes. -/
def Frame.encode (f : Frame) : List Nat :=
  f.header.toU8 :: f.command.encode

/-- `Frame::decode` from `spinel.rs`. -/
def Frame.decode (buffer : List Nat) : Option (Except Error Frame) :=
  if buffer.length < 2 then some (.error (.packetLength buffer.length))
  else
    match Header.tryFromU8 (buffer.headD 0) with
    | .error e => some (.error e)
    | .ok header =>
      match Command.decode (buffer.drop 1) with
      | none => none
      | some (.error e) => some (.error e)
      | some (.ok command) => some (.ok (Frame.mk header command))

/-- `Frame::last_status` from `spinel.rs`.  Both `value[0]` on an empty
payload and `Status::try_from(value[0]).unwrap()` on a byte outside the
status range panic; the outer `none` marks those panics. -/
def Frame.last_status (f : Frame) : Option (Option Status) :=
  match f.command with
  | .propertyValueIs prop value =>
    if prop = .lastStatus then
      match value with
      | [] => none
      | b :: _ =>
        match Status.tryFromU8 b with
        | .ok s => some (some s)
        | .error _ => none
    else some none
  | _ => some none

/-- One bit step of CRC-16/X.25 (`crc16` crate, reversed poly `0x8408`). -/
def crcBit (crc : Nat) : Nat :=
  if crc &&& 1 = 1 then (crc >>> 1) ^^^ 0x8408 else crc >>> 1

/-- One byte step of CRC-16/X.25. -/
def crcByte (crc byte : Nat) : Nat :=
  crcBit (crcBit (crcBit (crcBit (crcBit (crcBit (crcBit (crcBit (crc ^^^ byte))))))))

/-- `State::<crc16::X_25>::calculate`: init `0xFFFF`, final xor `0xFFFF`. -/
def crc16X25 (bytes : List Nat) : Nat :=
  (bytes.foldl crcByte 0xFFFF) ^^^ 0xFFFF

namespace HdlcLiteFrame

/-- `HdlcLiteFrame::requires_escape` from `hdlc.rs`. -/
def requires_escape (byte : Nat) : Bool :=
  byte = 0x7E || byte = 0x7D || byte = 0x11 || byte = 0x13 || byte = 0xF8

/-- `HdlcLiteFrame::encode` from `hdlc.rs`: delimiter, frame bytes, CRC over
the frame bytes in little-endian, delimiter.  The source contains a
`todo: check for escape` comment and performs no escaping. -/
def encode (f : Frame) : List Nat :=
  let body := f.encode
  let crc := crc16X25 body
  0x7E :: (body ++ [crc % 256, (crc >>> 8) % 256] ++ [0x7E])

/-- The unescaping loop of `HdlcLiteFrame::decode`: a byte in the escape set
flips `need_escape` and is dropped; the following byte is XORed with 0x20. -/
def unescapeGo : List Nat → Bool → List Nat
  | [], _ => []
  | byte :: rest, esc =>
    if requires_escape byte then unescapeGo rest true
    else (if esc then byte ^^^ 0x20 else byte) :: unescapeGo rest false

/-- Unescape with the `need_escape` flag initially clear. -/
def unescape (bytes : List Nat) : List Nat :=
  unescapeGo bytes false

/-- The tail of `HdlcLiteFrame::decode` after the delimiter checks:
`packet.split_off(pkt_len - 2)` underflows and panics (`none`) when the
unescaped packet is shorter than the 2-byte CRC. -/
def decodeBody (rest : List Nat) : Option (Except Error Frame) :=
  let packet := unescape rest
  if packet.length < 2 then none
  else
    let payload := packet.take (packet.length - 2)
    let pkt_crc :=
      (packet.getD (packet.length - 2) 0) ||| ((packet.getD (packet.length - 1) 0) <<< 8)
    let calculated_crc := crc16X25 payload
    if calculated_crc ≠ pkt_crc then some (.error (.hdlcChecksum calculated_crc))
    else Frame.decode payload

/-- `HdlcLiteFrame::decode` from `hdlc.rs`.  On an empty buffer the
delimiter checks are skipped and `split_off(1)` panics (`none`). -/
def decode (bytes : List Nat) : Option (Except Error Frame) :=
  match bytes with
  | [] => none
  | f :: rest =>
    if f ≠ 0x7E then some (.error (.hdlcStartDelimiter f))
    else
      match rest.getLast? with
      | some l =>
        if l ≠ 0x7E then some (.error (.hdlcEndDelimiter l))
        else decodeBody rest
      | none => decodeBody rest

end HdlcLiteFrame

/-!
Host connection actor (`posix.rs`).  The actor state carried across the
`run` loop is the IID, the TID counter and the pending-request lookup table
(`HashMap<u8, oneshot::Sender<Frame>>`).  Reply sinks are modelled by
numeric identifiers; the map is an association list whose `insert`
replaces any entry under the same key, as `HashMap::insert` does.
Transport outcomes (`self.stream.send(...)` succeeding or failing, the
mpsc send from the handle succeeding or failing) are boolean parameters.
-/

/-- `HashMap::get`/`remove` lookup on the pending table. -/
def lutLookup (lut : List (Nat × Nat)) (tid : Nat) : Option Nat :=
  (lut.find? (fun e => e.1 == tid)).map (fun e => e.2)

/-- Removal of a TID from the pending table. -/
def lutRemove (lut : List (Nat × Nat)) (tid : Nat) : List (Nat × Nat) :=
  lut.filter (fun e => e.1 != tid)

/-- `HashMap::insert`: any previous entry under the TID is replaced. -/
def lutInsert (lut : List (Nat × Nat)) (tid sink : Nat) : List (Nat × Nat) :=
  (tid, sink) :: lutRemove lut tid

/-- `const TID_START: u8 = 1` from `posix.rs`. -/
def TID_START : Nat := 1

/-- `struct PosixSpinelHost`: the mutable actor state (channels elided). -/
structure HostState where
  iid : Nat
  tid : Nat
  lut : List (Nat × Nat)
  deriving DecidableEq, Repr

/-- `PosixSpinelHost::increment_tid`: wrap from 15 back to `TID_START`. -/
def increment_tid (tid : Nat) : Nat :=
  if tid = 15 then TID_START else tid + 1

/-- `PosixSpinelHost::reset_tid`: reset the counter and clear the table. -/
def HostState.reset_tid (st : HostState) : HostState :=
  HostState.mk st.iid TID_START []

/-- `PosixSpinelHost::send_request`: build `Frame{Header{iid, tid}, cmd}`;
on transmit success reply with a receiver, register the sink under the
current TID and increment the TID; on failure reply with the error and
leave the state unchanged.  Returns the new state and the frame that was
handed to the transport (`none` when the send failed). -/
def send_request (st : HostState) (cmd : Command) (sink : Nat) (transmitOk : Bool) :
    HostState × Option Frame :=
  let frame := Frame.mk (Header.new st.iid st.tid) cmd
  if transmitOk then
    (HostState.mk st.iid (increment_tid st.tid) (lutInsert st.lut st.tid sink), some frame)
  else
    (st, none)

/-- `PosixSpinelHost::process_handle_msg` on a `Reset` message: the Reset
command goes through the ordinary `send_request` path. -/
def process_reset_msg (st : HostState) (sink : Nat) (transmitOk : Bool) :
    HostState × Option Frame :=
  send_request st .reset sink transmitOk

/-- `PosixSpinelHostHandle::send_reset`: enqueue the Reset message onto the
actor channel and return `Ok(())` immediately; the reply receiver is
dropped without being awaited.  The argument tells whether the mpsc send
succeeded. -/
def send_reset (sendOk : Bool) : Except Error Unit :=
  if sendOk then .ok () else .error .hostConnectionSend

/-- The five broadcast buses of `PosixSpinelHost`. -/
inductive Bus where
  | reset
  | debug
  | net
  | netInsecure
  | log
  deriving DecidableEq, Repr

/-- Observable effect of dispatching one inbound frame. -/
inductive DispatchEffect where
  | broadcast (b : Bus) (f : Frame)
  | toSink (sink : Nat) (f : Frame)
  | dropped
  deriving DecidableEq, Repr

/-- The inbound-dispatch arm of `PosixSpinelHost::run`: frames with TID 0
are classified by command (a `LastStatus` value notification whose payload
decodes into the `ResetReason` range resets the TID counter, clears the
table and goes to the Reset bus; stream value notifications go to their
bus; everything else is logged and dropped); frames with a non-zero TID
are handed to the sink removed from the pending table under that TID. -/
def dispatch (st : HostState) (frame : Frame) : HostState × DispatchEffect :=
  let tid := frame.header.tid
  if tid = 0 then
    match frame.command with
    | .propertyValueIs .lastStatus bytes =>
      let reset_reason := (PackedU32.decode bytes).1
      match ResetReason.tryFromU32 reset_reason with
      | .ok _ => (st.reset_tid, .broadcast .reset frame)
      | .error _ => (st, .dropped)
    | .propertyValueIs (.stream .debug) _ => (st, .broadcast .debug frame)
    | .propertyValueIs (.stream .net) _ => (st, .broadcast .net frame)
    | .propertyValueIs (.stream .netInsecure) _ => (st, .broadcast .netInsecure frame)
    | .propertyValueIs (.stream .log) _ => (st, .broadcast .log frame)
    | _ => (st, .dropped)
  else
    match lutLookup st.lut tid with
    | some sink => (HostState.mk st.iid st.tid (lutRemove st.lut tid), .toSink sink frame)
    | none => (st, .dropped)

/-- Whether a frame is a reset notification in the sense of the dispatch
code: a `LastStatus` value notification whose payload decodes into the
`ResetReason` range. -/
def isResetNotification (f : Frame) : Bool :=
  match f.command with
  | .propertyValueIs .lastStatus bytes =>
    match ResetReason.tryFromU32 (PackedU32.decode bytes).1 with
    | .ok _ => true
    | .error _ => false
  | _ => false

/-- The broadcast bus the spec assigns to a TID-0 command: the Reset bus
for a `LastStatus` value notification whose payload is in the ResetReason
range, the corresponding stream bus for a stream value notification, no
bus otherwise.  Written from the claim text, to be compared with
`dispatch`. -/
def specMatchingBus : Command → Option Bus
  | .propertyValueIs .lastStatus bytes =>
    match ResetReason.tryFromU32 (PackedU32.decode bytes).1 with
    | .ok _ => some .reset
    | .error _ => none
  | .propertyValueIs (.stream .debug) _ => some .debug
  | .propertyValueIs (.stream .net) _ => some .net
  | .propertyValueIs (.stream .netInsecure) _ => some .netInsecure
  | .propertyValueIs (.stream .log) _ => some .log
  | _ => none

/-! ### Helper lemmas on the bitwise operations -/

theorem and127_eq_mod (x : Nat) : x &&& 127 = x % 128 := by
  have h := Nat.and_pow_two_sub_one_eq_mod x 7
  norm_num at h
  exact h

theorem shiftRight7_eq_div (x : Nat) : x >>> 7 = x / 128 := by
  rw [Nat.shiftRight_eq_div_pow]

set_option maxRecDepth 40000 in
theorem lor128_of_lt : ∀ x < 128, x ||| 128 = x + 128 := by decide

set_option maxRecDepth 40000 in
theorem and128_eq_zero_iff : ∀ x < 256, (x &&& 128 = 0 ↔ x < 128) := by decide

/-! ### Theorems for the claims -/

/-- Claim C10: encoding `Frame{Header{iid=0, tid=1}, Noop}` yields exactly
`7E 81 00 53 9A 7E`, and decoding that encoding with its byte at index 4
replaced by `0x00` fails with `HdlcChecksum(0x9A53)`. -/
theorem noop_encode_bytes_and_crc_failure :
    HdlcLiteFrame.encode (Frame.mk (Header.new 0 1) Command.noop) =
      [0x7E, 0x81, 0x00, 0x53, 0x9A, 0x7E] ∧
    HdlcLiteFrame.decode [0x7E, 0x81, 0x00, 0x53, 0x00, 0x7E] =
      some (Except.error (Error.hdlcChecksum 0x9A53)) := by
  constructor <;> rfl

/-- Claim C1 (code bug): `HdlcLiteFrame::encode` performs no escaping (the
source carries a `todo: check for escape`): the frame
`Frame{Header{0,1}, PropertyValueIs(LastStatus, [0x7E])}` is emitted with
the raw byte `0x7E` at interior index 4 and no `0x7D` escape marker
anywhere, contradicting the escape policy. -/
theorem hdlc_encode_emits_unescaped_interior_delimiter :
    HdlcLiteFrame.encode (Frame.mk (Header.new 0 1)
        (Command.propertyValueIs .lastStatus [0x7E])) =
      [0x7E, 0x81, 0x06, 0x00, 0x7E, 0x2B, 0x81, 0x7E] ∧
    (HdlcLiteFrame.encode (Frame.mk (Header.new 0 1)
        (Command.propertyValueIs .lastStatus [0x7E]))).get? 4 = some 0x7E ∧
    (HdlcLiteFrame.encode (Frame.mk (Header.new 0 1)
        (Command.propertyValueIs .lastStatus [0x7E]))).count 0x7D = 0 := by
  refine ⟨rfl, rfl, rfl⟩

/-- Claim C2 (code bug): the HDLC-Lite round trip fails on a well-formed
frame whose bytes contain an escape-set byte, because `encode` does not
escape while `decode` unescapes: decoding the encoding of
`Frame{Header{0,1}, PropertyValueIs(LastStatus, [0x7E])}` returns
`HdlcChecksum(0xC42C)` instead of the frame. -/
theorem hdlc_roundtrip_fails_without_escaping :
    HdlcLiteFrame.decode (HdlcLiteFrame.encode (Frame.mk (Header.new 0 1)
        (Command.propertyValueIs .lastStatus [0x7E]))) =
      some (Except.error (Error.hdlcChecksum 0xC42C)) ∧
    HdlcLiteFrame.decode (HdlcLiteFrame.encode (Frame.mk (Header.new 0 1)
        (Command.propertyValueIs .lastStatus [0x7E]))) ≠
      some (Except.ok (Frame.mk (Header.new 0 1)
        (Command.propertyValueIs .lastStatus [0x7E]))) := by
  have h1 : HdlcLiteFrame.decode (HdlcLiteFrame.encode (Frame.mk (Header.new 0 1)
      (Command.propertyValueIs .lastStatus [0x7E]))) =
      some (Except.error (Error.hdlcChecksum 0xC42C)) := rfl
  refine ⟨h1, ?_⟩
  intro h
  rw [h1] at h
  exact Except.noConfusion (Option.some.inj h)

/-- Claim C3 (code bug): the decode path panics on malformed input:
`HdlcLiteFrame::decode` on `[7E 00 7E]` underflows `pkt_len - 2`,
`Command::decode` on `[06]` indexes `&payload[1..]` on an empty payload,
and `Frame::last_status` panics on an empty payload (`value[0]`) and on a
payload byte outside the status range (`unwrap`). -/
theorem decode_path_panics_on_malformed_input :
    HdlcLiteFrame.decode [0x7E, 0x00, 0x7E] = none ∧
    Command.decode [0x06] = none ∧
    Frame.last_status (Frame.mk (Header.new 0 0)
      (Command.propertyValueIs .lastStatus [])) = none ∧
    Frame.last_status (Frame.mk (Header.new 0 0)
      (Command.propertyValueIs .lastStatus [25])) = none := by
  refine ⟨rfl, rfl, rfl, rfl⟩

/-- Claim C4 counterexample: processing a Reset request in the initial
actor state transmits the frame with TID 1 (not 0), registers a pending
entry under TID 1 and increments the TID counter to 2. -/
theorem reset_request_allocates_tid_and_registers :
    process_reset_msg (HostState.mk 0 1 []) 0 true =
      (HostState.mk 0 2 [(1, 0)], some (Frame.mk (Header.new 0 1) Command.reset)) ∧
    (Frame.mk (Header.new 0 1) Command.reset).header.tid ≠ 0 := by
  refine ⟨rfl, by decide⟩

/-- Claim C4 as amended: `reset()` is fire-and-forget only at the handle
(`send_reset` reports success as soon as the message is enqueued, dropping
the reply receiver), but at the actor the Reset command goes through the
ordinary request path: it is sent with the current TID, a pending entry is
registered under that TID, and the TID is incremented; on transmit failure
nothing is registered. -/
theorem reset_goes_through_ordinary_request_path (st : HostState) (sink : Nat) :
    send_reset true = Except.ok () ∧
    send_reset false = Except.error Error.hostConnectionSend ∧
    process_reset_msg st sink true =
      (HostState.mk st.iid (increment_tid st.tid) (lutInsert st.lut st.tid sink),
        some (Frame.mk (Header.new st.iid st.tid) Command.reset)) ∧
    process_reset_msg st sink false = (st, none) := by
  refine ⟨rfl, rfl, rfl, rfl⟩

/-- Claim C6 counterexample: a TID-0 reset notification clears the whole
pending-request table, removing the live entry under TID 3. -/
theorem tid0_reset_notification_removes_pending_entry :
    (Frame.mk (Header.mk 2 0 0) (Command.propertyValueIs .lastStatus [112])).header.tid = 0 ∧
    lutLookup (HostState.mk 0 5 [(3, 7)]).lut 3 = some 7 ∧
    (dispatch (HostState.mk 0 5 [(3, 7)])
      (Frame.mk (Header.mk 2 0 0) (Command.propertyValueIs .lastStatus [112]))).1.lut = [] := by
  refine ⟨rfl, rfl, rfl⟩

/-- Claim C8 counterexample: for the 22-bit value 2_097_152 the encoder
reports a byte count of 4 and `write_to_buffer` panics on the
out-of-range slice `&array[..4]` (modelled `none`) instead of failing
with `PackedU32ByteCount`. -/
theorem packed_encode_overflow_panics :
    (PackedU32.encode 2097152).2 = 4 ∧
    PackedU32.write_to_buffer 2097152 = none := by
  refine ⟨rfl, rfl⟩

/-- Count bound helper: the byte count reported by `PackedU32::encode` as a
function of the shifted remainders. -/
theorem encode_count_eq (v : Nat) :
    (PackedU32.encode v).2 =
      if v >>> 7 = 0 then 1
      else if v >>> 7 >>> 7 = 0 then 2
      else if v >>> 7 >>> 7 >>> 7 = 0 then 3
      else 4 := by
  by_cases h1 : v >>> 7 = 0
  · simp [PackedU32.encode, h1, Nat.zero_shiftRight]
  · by_cases h2 : v >>> 7 >>> 7 = 0
    · simp [PackedU32.encode, h1, h2, Nat.zero_shiftRight]
    · by_cases h3 : v >>> 7 >>> 7 >>> 7 = 0
      · simp [PackedU32.encode, h1, h2, h3]
      · simp [PackedU32.encode, h1, h2, h3]

/-- The encoded array always has exactly three entries. -/
theorem encode_fst_length (v : Nat) : ((PackedU32.encode v).1).length = 3 := rfl

/-- Claim C8 as amended: the encoder always reports at least one octet and
`0` encodes to `[0x00]`; but for every value above 21 bits the reported
count is 4 and `write_to_buffer` panics on the out-of-range slice
`&array[..count]` (modelled `none`) instead of returning
`PackedU32ByteCount`. -/
theorem packed_encode_min_one_octet_and_overflow_panics (v : Nat) :
    1 ≤ (PackedU32.encode v).2 ∧
    PackedU32.encode 0 = ([0, 0, 0], 1) ∧
    PackedU32.write_to_buffer 0 = some ([0], 1) ∧
    (2097151 < v → (PackedU32.encode v).2 = 4 ∧ PackedU32.write_to_buffer v = none) := by
  refine ⟨?_, rfl, rfl, ?_⟩
  · rw [encode_count_eq]
    split_ifs <;> omega
  · intro hv
    have hc : (PackedU32.encode v).2 = 4 := by
      rw [encode_count_eq]
      simp only [shiftRight7_eq_div]
      rw [if_neg (by omega), if_neg (by omega), if_neg (by omega)]
    refine ⟨hc, ?_⟩
    simp only [PackedU32.write_to_buffer, hc, encode_fst_length]
    rw [if_neg (by omega)]

/-- Claim C9 counterexample: the all-continuation input `[80 80 80]` has
its third octet's MSB set, yet `TryFrom<&PackedByteSlice>` does not reject
it with `PackedU32ByteCount`: `count_bytes` returns 0 and
`copy_from_slice` panics on mismatched lengths (modelled `none`). -/
theorem tryFrom_all_continuation_input_panics :
    (0x80 : Nat) &&& 0x80 ≠ 0 ∧
    PackedU32.tryFromPackedByteSlice [0x80, 0x80, 0x80] = none := by
  refine ⟨by decide, rfl⟩

/-- Witness for the amended claim C8 at the concrete value 2_097_152. -/
theorem packed_encode_overflow_witness :
    2097151 < 2097152 ∧
    (PackedU32.encode 2097152).2 = 4 ∧
    PackedU32.write_to_buffer 2097152 = none :=
  ⟨by norm_num,
   ((packed_encode_min_one_octet_and_overflow_panics 2097152).2.2.2 (by norm_num)).1,
   ((packed_encode_min_one_octet_and_overflow_panics 2097152).2.2.2 (by norm_num)).2⟩

/-- `count_bytes` helper: with every octet's MSB set the loop never breaks
and the initial count `0` is returned. -/
theorem count_bytesAux_eq_zero_of_all_set (l : List Nat)
    (hl : ∀ b ∈ l, b &&& 0x80 ≠ 0) : ∀ i, PackedU32.count_bytesAux l i = 0 := by
  induction l with
  | nil => intro i; rfl
  | cons b t ih =>
    intro i
    have hb : b &&& 0x80 ≠ 0 := hl b (List.mem_cons_self b t)
    simp only [PackedU32.count_bytesAux]
    rw [if_neg hb]
    exact ih (fun x hx => hl x (List.mem_cons_of_mem b hx)) (i + 1)

/-- `count_bytes` helper: an MSB-clear octet somewhere in the list forces a
count beyond the running index. -/
theorem count_bytesAux_ge_of_exists_clear (l : List Nat) :
    ∀ i, (∃ b ∈ l, b &&& 0x80 = 0) → i + 1 ≤ PackedU32.count_bytesAux l i := by
  induction l with
  | nil =>
    intro i h
    rcases h with ⟨b, hb, _⟩
    exact absurd hb (List.not_mem_nil b)
  | cons b t ih =>
    intro i h
    by_cases hb : b &&& 0x80 = 0
    · simp only [PackedU32.count_bytesAux]
      rw [if_pos hb]
    · simp only [PackedU32.count_bytesAux]
      rw [if_neg hb]
      rcases h with ⟨x, hx, hxc⟩
      rcases List.mem_cons.1 hx with rfl | hxt
      · exact absurd hxc hb
      · have hge := ih (i + 1) ⟨x, hxt, hxc⟩
        omega

/-- Claim C9 as amended: for an input whose first three octets all carry
the continuation MSB, `TryFrom<&PackedByteSlice>` rejects it with
`PackedU32ByteCount` when some later octet has its MSB clear (a proper
4-byte-or-longer extension); when no octet ever clears the MSB,
`count_bytes` returns 0 and the conversion panics in `copy_from_slice`
(modelled `none`).  `PackedU32::decode` itself never errors on such
input: it reports a byte count of 0. -/
theorem tryFrom_extension_bytecount_or_panic (b0 b1 b2 : Nat) (rest : List Nat)
    (h0 : b0 &&& 0x80 ≠ 0) (h1 : b1 &&& 0x80 ≠ 0) (h2 : b2 &&& 0x80 ≠ 0) :
    ((∃ b ∈ rest, b &&& 0x80 = 0) →
      PackedU32.tryFromPackedByteSlice (b0 :: b1 :: b2 :: rest) =
        some (Except.error Error.packedU32ByteCount)) ∧
    ((∀ b ∈ rest, b &&& 0x80 ≠ 0) →
      PackedU32.tryFromPackedByteSlice (b0 :: b1 :: b2 :: rest) = none) ∧
    (PackedU32.decode (b0 :: b1 :: b2 :: rest)).2 = 0 := by
  have hcb : PackedU32.count_bytes (b0 :: b1 :: b2 :: rest) =
      PackedU32.count_bytesAux rest 3 := by
    simp only [PackedU32.count_bytes, PackedU32.count_bytesAux]
    rw [if_neg h0, if_neg h1, if_neg h2]
  refine ⟨?_, ?_, ?_⟩
  · intro hex
    have h4 := count_bytesAux_ge_of_exists_clear rest 3 hex
    simp only [PackedU32.tryFromPackedByteSlice, hcb]
    rw [if_pos (by omega)]
  · intro hall
    have h5 := count_bytesAux_eq_zero_of_all_set rest hall 3
    simp only [PackedU32.tryFromPackedByteSlice, hcb, h5]
    rw [if_neg (by omega), if_neg (by omega)]
  · cases rest with
    | nil => simp [PackedU32.decode, PackedU32.decodeAux, h0, h1, h2]
    | cons r t => simp [PackedU32.decode, PackedU32.decodeAux, h0, h1, h2]

/-- Witness for the amended claim C9 at the inputs `[80 80 80 0F]`
(proper 4-byte extension, rejected) and `[80 80 80 80]` (no terminating
octet, panics). -/
theorem tryFrom_extension_witness :
    PackedU32.tryFromPackedByteSlice [0x80, 0x80, 0x80, 0x0F] =
      some (Except.error Error.packedU32ByteCount) ∧
    PackedU32.tryFromPackedByteSlice [0x80, 0x80, 0x80, 0x80] = none :=
  ⟨(tryFrom_extension_bytecount_or_panic 0x80 0x80 0x80 [0x0F]
      (by decide) (by decide) (by decide)).1 ⟨0x0F, by simp, by decide⟩,
   (tryFrom_extension_bytecount_or_panic 0x80 0x80 0x80 [0x80]
      (by decide) (by decide) (by decide)).2.1 (by decide)⟩

/-- Claim C7: for every value in the representable 21-bit range, decoding
the encoded 3-byte array returns the value together with `packed_len`. -/
theorem packedU32_roundtrip (v : Nat) (h : v ≤ 2097151) :
    PackedU32.decode (PackedU32.encode v).1 = (v, PackedU32.packed_len v) := by
  rcases Nat.lt_or_ge v 128 with h1 | h1
  · have e7 : v >>> 7 = 0 := by rw [shiftRight7_eq_div]; omega
    have ea : v &&& 127 = v := by rw [and127_eq_mod]; omega
    have eb : v &&& 128 = 0 := (and128_eq_zero_iff v (by omega)).2 h1
    have henc : PackedU32.encode v = ([v, 0, 0], 1) := by
      simp [PackedU32.encode, e7, ea, Nat.zero_shiftRight]
    have hlen : PackedU32.packed_len v = 1 := by
      simp only [PackedU32.packed_len]
      rw [if_pos (by omega)]
    rw [henc, hlen]
    simp [PackedU32.decode, PackedU32.decodeAux, ea, eb]
  rcases Nat.lt_or_ge v 16384 with h2 | h2
  · have e7 : v >>> 7 = v / 128 := shiftRight7_eq_div v
    have e14 : (v / 128) >>> 7 = 0 := by rw [shiftRight7_eq_div]; omega
    have hd1 : ¬ (v / 128 = 0) := by omega
    have ea : v &&& 127 = v % 128 := and127_eq_mod v
    have eb0 : v % 128 ||| 128 = v % 128 + 128 := lor128_of_lt _ (by omega)
    have ea1 : v / 128 &&& 127 = v / 128 := by rw [and127_eq_mod]; omega
    have henc : PackedU32.encode v = ([v % 128 + 128, v / 128, 0], 2) := by
      simp [PackedU32.encode, e7, e14, hd1, ea, eb0, ea1, Nat.zero_shiftRight]
    have c0 : (v % 128 + 128) &&& 127 = v % 128 := by rw [and127_eq_mod]; omega
    have c0b : ¬ ((v % 128 + 128) &&& 128 = 0) := by
      intro hz
      have hlt := (and128_eq_zero_iff (v % 128 + 128) (by omega)).1 hz
      omega
    have c1 : v / 128 &&& 128 = 0 := (and128_eq_zero_iff _ (by omega)).2 (by omega)
    have hlen : PackedU32.packed_len v = 2 := by
      simp only [PackedU32.packed_len]
      rw [if_neg (by omega), if_pos (by omega)]
    rw [henc, hlen]
    simp [PackedU32.decode, PackedU32.decodeAux, c0, c0b, c1, ea1]
    omega
  · have e7 : v >>> 7 = v / 128 := shiftRight7_eq_div v
    have e14 : (v / 128) >>> 7 = v / 16384 := by
      rw [shiftRight7_eq_div, Nat.div_div_eq_div_mul]
    have e21 : (v / 16384) >>> 7 = 0 := by rw [shiftRight7_eq_div]; omega
    have hd1 : ¬ (v / 128 = 0) := by omega
    have hd2 : ¬ (v / 16384 = 0) := by omega
    have ea : v &&& 127 = v % 128 := and127_eq_mod v
    have eb0 : v % 128 ||| 128 = v % 128 + 128 := lor128_of_lt _ (by omega)
    have ea1 : v / 128 &&& 127 = v / 128 % 128 := and127_eq_mod _
    have eb1 : v / 128 % 128 ||| 128 = v / 128 % 128 + 128 := lor128_of_lt _ (by omega)
    have ea2 : v / 16384 &&& 127 = v / 16384 := by rw [and127_eq_mod]; omega
    have henc : PackedU32.encode v =
        ([v % 128 + 128, v / 128 % 128 + 128, v / 16384], 3) := by
      simp [PackedU32.encode, e7, e14, e21, hd1, hd2, ea, eb0, ea1, eb1, ea2]
    have c0 : (v % 128 + 128) &&& 127 = v % 128 := by rw [and127_eq_mod]; omega
    have c0b : ¬ ((v % 128 + 128) &&& 128 = 0) := by
      intro hz
      have hlt := (and128_eq_zero_iff (v % 128 + 128) (by omega)).1 hz
      omega
    have c1 : (v / 128 % 128 + 128) &&& 127 = v / 128 % 128 := by
      rw [and127_eq_mod]; omega
    have c1b : ¬ ((v / 128 % 128 + 128) &&& 128 = 0) := by
      intro hz
      have hlt := (and128_eq_zero_iff (v / 128 % 128 + 128) (by omega)).1 hz
      omega
    have c2 : v / 16384 &&& 128 = 0 := (and128_eq_zero_iff _ (by omega)).2 (by omega)
    have hlen : PackedU32.packed_len v = 3 := by
      simp only [PackedU32.packed_len]
      rw [if_neg (by omega), if_neg (by omega)]
    rw [henc, hlen]
    simp [PackedU32.decode, PackedU32.decodeAux, c0, c0b, c1, c1b, c2, ea2]
    omega

/-- Witness for claim C7 at the concrete value 1337. -/
theorem packedU32_roundtrip_witness :
    1337 ≤ 2097151 ∧
    PackedU32.decode (PackedU32.encode 1337).1 = (1337, PackedU32.packed_len 1337) :=
  ⟨by norm_num, packedU32_roundtrip 1337 (by norm_num)⟩

/-- Claim C5: starting from `TID_START`, the n-th allocated TID is
`n % 15 + 1` (so the sequence is 1,2,…,15,1,… and 0 is never allocated);
a successful `send_request` sends with the current TID and advances the
counter by `increment_tid`; processing a reset notification leaves the
pending table empty and the counter at `TID_START`. -/
theorem tid_sequence_cycles_and_reset_clears :
    (∀ n : Nat, increment_tid^[n] TID_START = n % 15 + 1) ∧
    (∀ (st : HostState) (cmd : Command) (sink : Nat),
      (send_request st cmd sink true).2 = some (Frame.mk (Header.new st.iid st.tid) cmd) ∧
      (send_request st cmd sink true).1.tid = increment_tid st.tid) ∧
    (∀ (st : HostState) (f : Frame),
      f.header.tid = 0 → isResetNotification f = true →
      (dispatch st f).1.lut = [] ∧ (dispatch st f).1.tid = TID_START) := by
  refine ⟨?_, ?_, ?_⟩
  · intro n
    induction n with
    | zero => rfl
    | succ n ih =>
      rw [Function.iterate_succ_apply', ih]
      simp only [increment_tid, TID_START]
      by_cases hc : n % 15 + 1 = 15
      · rw [if_pos hc]; omega
      · rw [if_neg hc]; omega
  · intro st cmd sink
    exact ⟨rfl, rfl⟩
  · intro st f h0 hr
    rcases f with ⟨hdr, cmd⟩
    simp only at h0
    cases cmd with
    | noop => simp [isResetNotification] at hr
    | reset => simp [isResetNotification] at hr
    | propertyValueGet p => simp [isResetNotification] at hr
    | propertyValueIs p bytes =>
      cases p with
      | lastStatus =>
        rcases he : ResetReason.tryFromU32 (PackedU32.decode bytes).1 with u | r
        · simp [isResetNotification, he] at hr
        · simp [dispatch, h0, he, HostState.reset_tid]
      | protocolVersion => simp [isResetNotification] at hr
      | ncpVersion => simp [isResetNotification] at hr
      | interfaceType => simp [isResetNotification] at hr
      | stream s => simp [isResetNotification] at hr

/-- Witness for claim C5: the 17th allocation wraps to 3, and a concrete
reset notification clears the table of a mid-flight state. -/
theorem tid_sequence_witness :
    increment_tid^[17] TID_START = 17 % 15 + 1 ∧
    (dispatch (HostState.mk 0 7 [(3, 5)])
        (Frame.mk (Header.mk 2 0 0) (Command.propertyValueIs .lastStatus [112]))).1.lut = [] ∧
    (dispatch (HostState.mk 0 7 [(3, 5)])
        (Frame.mk (Header.mk 2 0 0) (Command.propertyValueIs .lastStatus [112]))).1.tid =
      TID_START :=
  ⟨tid_sequence_cycles_and_reset_clears.1 17,
   (tid_sequence_cycles_and_reset_clears.2.2 (HostState.mk 0 7 [(3, 5)])
      (Frame.mk (Header.mk 2 0 0) (Command.propertyValueIs .lastStatus [112]))
      rfl (by decide)).1,
   (tid_sequence_cycles_and_reset_clears.2.2 (HostState.mk 0 7 [(3, 5)])
      (Frame.mk (Header.mk 2 0 0) (Command.propertyValueIs .lastStatus [112]))
      rfl (by decide)).2⟩

/-- Claim C6 as amended: a TID-0 frame is published only to the broadcast
bus matching its command (per `specMatchingBus`) or dropped — never handed
to a pending sink — and the pending table is untouched except that a valid
reset notification clears it wholesale; a frame with non-zero TID is only
handed to the sink registered under that TID, which is removed, and is
never broadcast. -/
theorem dispatch_partitioning_amended (st : HostState) (f : Frame) :
    (f.header.tid = 0 →
      (dispatch st f).2 = (match specMatchingBus f.command with
        | some b => DispatchEffect.broadcast b f
        | none => DispatchEffect.dropped) ∧
      ((dispatch st f).1.lut = st.lut ∨
        (isResetNotification f = true ∧ (dispatch st f).1.lut = []))) ∧
    (f.header.tid ≠ 0 →
      match lutLookup st.lut f.header.tid with
      | some sink => dispatch st f =
          (HostState.mk st.iid st.tid (lutRemove st.lut f.header.tid),
            DispatchEffect.toSink sink f)
      | none => dispatch st f = (st, DispatchEffect.dropped)) := by
  constructor
  · intro h0
    rcases f with ⟨hdr, cmd⟩
    simp only at h0
    cases cmd with
    | noop => simp [dispatch, specMatchingBus, h0]
    | reset => simp [dispatch, specMatchingBus, h0]
    | propertyValueGet p => simp [dispatch, specMatchingBus, h0]
    | propertyValueIs p bytes =>
      cases p with
      | lastStatus =>
        rcases he : ResetReason.tryFromU32 (PackedU32.decode bytes).1 with u | r
        · simp [dispatch, specMatchingBus, isResetNotification, h0, he]
        · simp [dispatch, specMatchingBus, isResetNotification, h0, he,
            HostState.reset_tid]
      | protocolVersion => simp [dispatch, specMatchingBus, h0]
      | ncpVersion => simp [dispatch, specMatchingBus, h0]
      | interfaceType => simp [dispatch, specMatchingBus, h0]
      | stream s => cases s <;> simp [dispatch, specMatchingBus, h0]
  · intro hne
    rcases hl : lutLookup st.lut f.header.tid with _ | sink <;>
      simp [dispatch, hne, hl]

/-- Witness for the amended claim C6: a TID-0 debug-stream frame goes to
the Debug bus, and a TID-3 response is handed to the sink pending under
TID 3, which is removed. -/
theorem dispatch_partitioning_witness :
    (dispatch (HostState.mk 0 5 [(3, 7)])
        (Frame.mk (Header.mk 2 0 0) (Command.propertyValueIs (.stream .debug) []))).2 =
      DispatchEffect.broadcast Bus.debug
        (Frame.mk (Header.mk 2 0 0) (Command.propertyValueIs (.stream .debug) [])) ∧
    dispatch (HostState.mk 0 5 [(3, 7)]) (Frame.mk (Header.mk 2 0 3) Command.noop) =
      (HostState.mk 0 5 [], DispatchEffect.toSink 7 (Frame.mk (Header.mk 2 0 3) Command.noop)) := by
  constructor
  · have h := (dispatch_partitioning_amended (HostState.mk 0 5 [(3, 7)])
      (Frame.mk (Header.mk 2 0 0) (Command.propertyValueIs (.stream .debug) []))).1 rfl
    exact h.1
  · have h := (dispatch_partitioning_amended (HostState.mk 0 5 [(3, 7)])
      (Frame.mk (Header.mk 2 0 3) Command.noop)).2 (by decide)
    exact h

end Spinel
